import Mathlib

/-!
Shallow embedding of the rust-kv service (src/main.rs): an in-memory
key-value HTTP service that records per-request latencies and reports
P50/P95/P99 percentile statistics.

Modelling conventions:
* A Rust `Duration` is embedded as its total nanosecond count (`Nat`);
  `Duration::as_micros()` is floor division by 1000, and Rust orders
  `Duration` values by total nanoseconds.
* The source computes percentile indices as `(len as f64 * q) as usize`
  for q in 0.50 / 0.95 / 0.99.  For every vector length realisable in a
  process address space (far below 2^49) this f64 truncation coincides
  with the exact floor `len * qnum / 100`, which is how it is embedded;
  the reported millisecond values (`as_micros() as f64 / 1000.0`) are
  embedded as exact rationals.
* `Vec::sort` (stable, in place, ascending) is embedded as
  `List.insertionSort (· ≤ ·)`; on `Nat` any ascending sort produces the
  same list, so stability is not observable.
* The `RwLock`s serialise every access, so handlers are embedded as pure
  state transformers; `HashMap<String, String>` is embedded as
  `String → Option String` (insert / get / remove are exactly pointwise
  function update and application).
* HTTP status codes are embedded as the bare numerals 200 / 204 / 404.
* `Instant::now()` calls are embedded as abstract timestamps (ticks of a
  monotone clock) passed in explicitly, in program order.
-/

namespace RustKV

/-- `Duration::as_micros()` on a duration given in nanoseconds. -/
def as_micros (d : Nat) : Nat := d / 1000

/-- The unclamped percentile index `(len as f64 * q) as usize` of
`Metrics::get_percentiles`, with q written as qnum/100 (qnum is 50, 95
or 99); exact-floor embedding of the f64 truncation. -/
def p_idx (len qnum : Nat) : Nat := len * qnum / 100

/-- `Metrics::record`: pushes a duration onto the shared vector. -/
def Metrics.record (latencies : List Nat) (duration : Nat) : List Nat :=
  latencies ++ [duration]

/-- `Metrics::get_percentiles`: takes the write lock, returns
(0.0, 0.0, 0.0, 0) on an empty vector, otherwise sorts the vector in
place ascending and reads the three clamped percentile indices,
converting each to milliseconds.  The result pairs the returned tuple
with the vector state left behind (sorted in the non-empty case). -/
def Metrics.get_percentiles (latencies : List Nat) :
    (ℚ × ℚ × ℚ × Nat) × List Nat :=
  if latencies.isEmpty then ((0, 0, 0, 0), latencies)
  else
    let sorted := List.insertionSort (· ≤ ·) latencies
    let len := sorted.length
    let p50 : ℚ := (as_micros (sorted.getD (min (p_idx len 50) (len - 1)) 0) : ℚ) / 1000
    let p95 : ℚ := (as_micros (sorted.getD (min (p_idx len 95) (len - 1)) 0) : ℚ) / 1000
    let p99 : ℚ := (as_micros (sorted.getD (min (p_idx len 99) (len - 1)) 0) : ℚ) / 1000
    ((p50, p95, p99, len), sorted)

/-- Spec-side description of one percentile value: the sample of the
ascending-sorted sequence `m` at index `min (floor (N * q)) (N - 1)`,
converted to milliseconds as microseconds divided by 1000. -/
def specSample (m : List Nat) (len qnum : Nat) : ℚ :=
  (as_micros (m.getD (min (len * qnum / 100) (len - 1)) 0) : ℚ) / 1000

/-- One client-visible operation on the metrics recorder. -/
inductive Op where
  | record (d : Nat)
  | snapshot

/-- Effect of one operation on the recorder state. -/
def applyOp (l : List Nat) : Op → List Nat
  | .record d => Metrics.record l d
  | .snapshot => (Metrics.get_percentiles l).2

/-- Run an interleaving of record / snapshot calls from a given state. -/
def runOps (l : List Nat) : List Op → List Nat
  | [] => l
  | op :: ops => runOps (applyOp l op) ops

/-- Number of record calls in an interleaving. -/
def countRecords : List Op → Nat
  | [] => 0
  | .record _ :: ops => countRecords ops + 1
  | .snapshot :: ops => countRecords ops

/-- The key-value store: `HashMap<String, String>` as a total function
to `Option String`. -/
def Store := String → Option String

/-- The store created at startup: empty map. -/
def emptyStore : Store := fun _ => none

/-- `put_handler`: inserts (or overwrites) key ↦ body, returns 200. -/
def put_handler (store : Store) (key body : String) : Nat × Store :=
  (200, fun k => if k = key then some body else store k)

/-- `get_handler`: 200 with the value if the key is present, otherwise
404 with empty body. -/
def get_handler (store : Store) (key : String) : Nat × String :=
  match store key with
  | some value => (200, value)
  | none => (404, "")

/-- `delete_handler`: removes the key; 204 if it was present, otherwise
404 (removing an absent key leaves the map unchanged). -/
def delete_handler (store : Store) (key : String) : Nat × Store :=
  match store key with
  | some _ => (204, fun k => if k = key then none else store k)
  | none => (404, store)

/-- Round a rational to the nearest integer, ties to even (the IEEE
default rounding). -/
def rndHalfEven (x : ℚ) : ℤ :=
  let f := ⌊x⌋
  let r := x - (f : ℚ)
  if r < 1 / 2 then f
  else if 1 / 2 < r then f + 1
  else if f % 2 = 0 then f else f + 1

/-- Floor of the base-2 logarithm of a positive rational: the unique
`s` with `2 ^ s ≤ q < 2 ^ (s + 1)`.  The log2s of numerator and
denominator pin it to two candidates; one comparison decides. -/
def qlog2 (q : ℚ) : ℤ :=
  let s : ℤ := (Nat.log2 q.num.toNat : ℤ) - (Nat.log2 q.den : ℤ)
  if q < (2 : ℚ) ^ s then s - 1 else s

/-- The IEEE binary64 double nearest to a nonnegative rational, as an
exact rational: the significand is rounded to 53 bits, to nearest with
ties to even.  The exponent range is left unbounded, which coincides
with binary64 on every value a realizable duration can produce (all
normal, far below overflow). -/
def f64round (q : ℚ) : ℚ :=
  if q ≤ 0 then 0
  else
    let e : ℤ := qlog2 q - 52
    (rndHalfEven (q * (2 : ℚ) ^ (-e)) : ℚ) * (2 : ℚ) ^ e

/-- Rust `{:.2}` fixed-point rendering of a nonnegative millisecond
value.  The program formats the f64 quotient `micros as f64 / 1000.0`:
the integer-to-f64 cast is exact below 2^53 µs (about 285 years), so a
single IEEE rounding — the division, modelled by `f64round` — produces
the formatted double; `{:.2}` then prints that double's exact value
rounded to two decimals (ties to even — exact decimal ties of a double
cannot arise in the realizable range).  In particular a 15 µs sample
renders as "0.01", matching the program, since the double nearest
0.015 lies below the decimal midpoint. -/
def fmt2 (q : ℚ) : String :=
  let n : ℤ := rndHalfEven (f64round q * 100)
  toString (n / 100) ++ "." ++
    (if (n % 100).toNat < 10 then "0" else "") ++ toString (n % 100).toNat

/-- Spec-side description of the metrics report body: the four-line
plain-text template over a snapshot tuple. -/
def reportString (p50 p95 p99 : ℚ) (count : Nat) : String :=
  "Latency Metrics (last " ++ toString count ++ " requests)\n" ++
  "P50: " ++ fmt2 p50 ++ "ms\n" ++
  "P95: " ++ fmt2 p95 ++ "ms\n" ++
  "P99: " ++ fmt2 p99 ++ "ms\n"

/-- `metrics_handler`: snapshots the recorder and returns a 200 response
with the formatted plain-text report (the `format!` call in source). -/
def metrics_handler (metrics : List Nat) : Nat × String :=
  let s := (Metrics.get_percentiles metrics).1
  (200,
    "Latency Metrics (last " ++ toString s.2.2.2 ++ " requests)\n" ++
    "P50: " ++ fmt2 s.1 ++ "ms\n" ++
    "P95: " ++ fmt2 s.2.1 ++ "ms\n" ++
    "P99: " ++ fmt2 s.2.2.1 ++ "ms\n")

/-- `latency_middleware`: takes its own start timestamp `t1`, runs the
wrapped handler (whose response is `resp`), takes timestamp `t2`, logs
the elapsed duration `t2 - t1`, and returns the response unchanged.
Result: (response, duration written to the log line). -/
def latency_middleware {Resp : Type} (t1 t2 : Nat) (resp : Resp) :
    Resp × Nat :=
  (resp, t2 - t1)

/-- The middleware closure installed by `main`: takes timestamp `t0`,
awaits `latency_middleware` (which takes `t1`, `t2` internally), takes
timestamp `t3`, records `t3 - t0` into the recorder, and returns the
response.  Result: (response, logged duration, recorder state). -/
def middleware_layer {Resp : Type} (t0 t1 t2 t3 : Nat) (resp : Resp)
    (metrics : List Nat) : Resp × Nat × List Nat :=
  let inner := latency_middleware t1 t2 resp
  (inner.1, inner.2, Metrics.record metrics (t3 - t0))

/-! Helper lemmas shared by several claims. -/

/-- Sorting is determined by the multiset: the in-place sort of
`get_percentiles` produces the unique ascending reordering. -/
theorem insertionSort_eq_of_perm_sorted {l m : List Nat} (hp : l.Perm m)
    (hs : m.Sorted (· ≤ ·)) : List.insertionSort (· ≤ ·) l = m :=
  List.eq_of_perm_of_sorted ((List.perm_insertionSort _ l).trans hp)
    (List.sorted_insertionSort _ l) hs

/-- Unfolding of `get_percentiles` on a non-empty vector. -/
theorem get_percentiles_cons (a : Nat) (tl : List Nat) :
    Metrics.get_percentiles (a :: tl) =
      ((specSample (List.insertionSort (· ≤ ·) (a :: tl))
          (List.insertionSort (· ≤ ·) (a :: tl)).length 50,
        specSample (List.insertionSort (· ≤ ·) (a :: tl))
          (List.insertionSort (· ≤ ·) (a :: tl)).length 95,
        specSample (List.insertionSort (· ≤ ·) (a :: tl))
          (List.insertionSort (· ≤ ·) (a :: tl)).length 99,
        (List.insertionSort (· ≤ ·) (a :: tl)).length),
       List.insertionSort (· ≤ ·) (a :: tl)) := rfl

/-- `get_percentiles` on an already-sorted vector reads it in place. -/
theorem get_percentiles_sorted (l : List Nat) (hs : l.Sorted (· ≤ ·)) :
    Metrics.get_percentiles l =
      ((specSample l l.length 50, specSample l l.length 95,
        specSample l l.length 99, l.length), l) := by
  cases l with
  | nil =>
    simp [Metrics.get_percentiles, specSample, as_micros]
  | cons a tl => rw [get_percentiles_cons, List.Sorted.insertionSort_eq hs]

/-- A snapshot leaves the number of samples unchanged. -/
theorem get_percentiles_length (l : List Nat) :
    (Metrics.get_percentiles l).2.length = l.length := by
  cases l with
  | nil => rfl
  | cons a tl =>
    rw [get_percentiles_cons]
    exact List.length_insertionSort (· ≤ ·) (a :: tl)

/-- A snapshot permutes the samples (removes and duplicates nothing). -/
theorem get_percentiles_perm (l : List Nat) :
    (Metrics.get_percentiles l).2.Perm l := by
  cases l with
  | nil => exact List.Perm.refl _
  | cons a tl =>
    rw [get_percentiles_cons]
    exact List.perm_insertionSort (· ≤ ·) (a :: tl)

/-- The count component of a snapshot is the number of samples. -/
theorem get_percentiles_count (l : List Nat) :
    (Metrics.get_percentiles l).1.2.2.2 = l.length := by
  cases l with
  | nil => rfl
  | cons a tl =>
    rw [get_percentiles_cons]
    exact List.length_insertionSort (· ≤ ·) (a :: tl)

/-- Running an interleaving of operations adds one sample per record
call and none otherwise. -/
theorem runOps_length (l : List Nat) (ops : List Op) :
    (runOps l ops).length = l.length + countRecords ops := by
  induction ops generalizing l with
  | nil => simp [runOps, countRecords]
  | cons op ops ih =>
    cases op with
    | record d =>
      simp only [runOps, applyOp, countRecords, ih, Metrics.record,
        List.length_append, List.length_cons, List.length_nil]
      omega
    | snapshot =>
      simp only [runOps, applyOp, countRecords, ih, get_percentiles_length]

/-! The claims. -/

/-- Claim C1: for every non-empty sequence of N recorded samples,
`get_percentiles` returns, for each q in 0.50 / 0.95 / 0.99, the sample
at sorted-ascending index `min (floor (N * q)) (N - 1)`, converted to
milliseconds as microseconds divided by 1000, together with count = N
(stated against an arbitrary ascending reordering `m` of the samples). -/
theorem C1_snapshot_percentiles (l m : List Nat) (h : l ≠ [])
    (hp : l.Perm m) (hs : m.Sorted (· ≤ ·)) :
    (Metrics.get_percentiles l).1 =
      (specSample m l.length 50, specSample m l.length 95,
       specSample m l.length 99, l.length) := by
  obtain ⟨a, tl, rfl⟩ := List.exists_cons_of_ne_nil h
  have hm : List.insertionSort (· ≤ ·) (a :: tl) = m :=
    insertionSort_eq_of_perm_sorted hp hs
  rw [get_percentiles_cons, hm, hp.length_eq]

/-- Witness for C1 at samples [3000, 1000, 2000] ns. -/
theorem C1_witness :
    ([3000, 1000, 2000] : List Nat) ≠ [] ∧
    ([3000, 1000, 2000] : List Nat).Perm [1000, 2000, 3000] ∧
    ([1000, 2000, 3000] : List Nat).Sorted (· ≤ ·) ∧
    (Metrics.get_percentiles [3000, 1000, 2000]).1 =
      (specSample [1000, 2000, 3000] ([3000, 1000, 2000] : List Nat).length 50,
       specSample [1000, 2000, 3000] ([3000, 1000, 2000] : List Nat).length 95,
       specSample [1000, 2000, 3000] ([3000, 1000, 2000] : List Nat).length 99,
       ([3000, 1000, 2000] : List Nat).length) :=
  ⟨by decide, by decide, by decide,
    C1_snapshot_percentiles [3000, 1000, 2000] [1000, 2000, 3000]
      (by decide) (by decide) (by decide)⟩

/-- Claim C2: on an empty sample sequence `get_percentiles` returns
exactly (0.0, 0.0, 0.0, 0) and leaves the sequence empty; no failure. -/
theorem C2_empty_snapshot :
    Metrics.get_percentiles [] = ((0, 0, 0, 0), []) := rfl

/-- Claim C3: over every interleaving of record and snapshot calls
starting from the empty recorder, the count returned by a snapshot
equals the number of record calls made so far; each record call adds
exactly one sample, and a snapshot neither removes, duplicates, nor
adds samples (its state is a permutation of the old one). -/
theorem C3_count_additive (ops : List Op) (l : List Nat) (d : Nat) :
    (Metrics.get_percentiles (runOps [] ops)).1.2.2.2 = countRecords ops ∧
    (Metrics.record l d).length = l.length + 1 ∧
    (Metrics.get_percentiles l).2.Perm l := by
  refine ⟨?_, by simp [Metrics.record], get_percentiles_perm l⟩
  rw [get_percentiles_count, runOps_length]
  simp

/-- Claim C4: the snapshot tuple depends only on the multiset of
samples — permuting the recorded sequence leaves it unchanged. -/
theorem C4_perm_invariant (l l' : List Nat) (hp : l.Perm l') :
    (Metrics.get_percentiles l).1 = (Metrics.get_percentiles l').1 := by
  cases l with
  | nil =>
    have : l' = [] := hp.symm.eq_nil
    rw [this]
  | cons a tl =>
    cases l' with
    | nil => exact absurd hp.eq_nil (by simp)
    | cons b tl' =>
      have hsort : List.insertionSort (· ≤ ·) (a :: tl) =
          List.insertionSort (· ≤ ·) (b :: tl') :=
        insertionSort_eq_of_perm_sorted
          (hp.trans (List.perm_insertionSort (· ≤ ·) (b :: tl')).symm)
          (List.sorted_insertionSort (· ≤ ·) (b :: tl'))
      rw [get_percentiles_cons, get_percentiles_cons, hsort]

/-- Witness for C4 at the pair [300, 100, 200] / [100, 200, 300]. -/
theorem C4_witness :
    ([300, 100, 200] : List Nat).Perm [100, 200, 300] ∧
    (Metrics.get_percentiles [300, 100, 200]).1 =
      (Metrics.get_percentiles [100, 200, 300]).1 :=
  ⟨by decide, C4_perm_invariant [300, 100, 200] [100, 200, 300] (by decide)⟩

/-- Claim C5: snapshot is idempotent as a read — a second
`get_percentiles` with no intervening record returns the same tuple,
even though the first call sorted the sequence in place. -/
theorem C5_snapshot_idempotent (l : List Nat) :
    (Metrics.get_percentiles (Metrics.get_percentiles l).2).1 =
      (Metrics.get_percentiles l).1 := by
  cases l with
  | nil => rfl
  | cons a tl =>
    rw [get_percentiles_cons,
      get_percentiles_sorted _ (List.sorted_insertionSort (· ≤ ·) (a :: tl))]

/-- Claim C6: key-value round trip from any store state — PUT /foo
"bar" returns 200; GET /foo then returns 200 with body "bar";
DELETE /foo then returns 204; a GET /foo after that returns 404. -/
theorem C6_round_trip (s : Store) :
    (put_handler s "foo" "bar").1 = 200 ∧
    get_handler (put_handler s "foo" "bar").2 "foo" = (200, "bar") ∧
    (delete_handler (put_handler s "foo" "bar").2 "foo").1 = 204 ∧
    get_handler (delete_handler (put_handler s "foo" "bar").2 "foo").2 "foo" =
      (404, "") := by
  refine ⟨rfl, ?_, ?_, ?_⟩ <;>
    simp [put_handler, get_handler, delete_handler]

/-- Claim C7: for every store state and key absent from it, GET and
DELETE return 404 with an empty body and leave the store unchanged. -/
theorem C7_absent_key (s : Store) (key : String) (h : s key = none) :
    get_handler s key = (404, "") ∧ delete_handler s key = (404, s) := by
  constructor <;> simp [get_handler, delete_handler, h]

/-- Witness for C7: GET /missing and DELETE /missing on the empty
store. -/
theorem C7_witness :
    emptyStore "missing" = none ∧
    (get_handler emptyStore "missing" = (404, "") ∧
     delete_handler emptyStore "missing" = (404, emptyStore)) :=
  ⟨rfl, C7_absent_key emptyStore "missing" rfl⟩

/-- Claim C8: the metrics endpoint returns status 200 for every
recorder state, and its plain-text body is exactly the four-line report
"Latency Metrics (last {count} requests)" followed by P50 / P95 / P99
lines with two-decimal fixed-point millisecond values; in particular,
with zero samples it reports count 0 and 0.00ms everywhere. -/
theorem C8_metrics_endpoint (l : List Nat) :
    (metrics_handler l).1 = 200 ∧
    (metrics_handler l).2 =
      reportString (Metrics.get_percentiles l).1.1
        (Metrics.get_percentiles l).1.2.1
        (Metrics.get_percentiles l).1.2.2.1
        (Metrics.get_percentiles l).1.2.2.2 ∧
    metrics_handler [] =
      (200, "Latency Metrics (last 0 requests)\n" ++
        "P50: 0.00ms\nP95: 0.00ms\nP99: 0.00ms\n") := by
  refine ⟨rfl, rfl, ?_⟩
  have h0 : f64round 0 = 0 := by simp [f64round]
  have h1 : rndHalfEven (0 : ℚ) = 0 := by
    norm_num [rndHalfEven]
  norm_num [metrics_handler, Metrics.get_percentiles, fmt2, h0, h1]
  rfl

/-- Claim C9 counterexample: with outer timestamps 0 and 5 and inner
timestamps 1 and 3 (a monotone clock), the closure records duration 5
while the log line inside `latency_middleware` reports duration 2 —
the logged duration is not the recorded one. -/
theorem C9_counterexample :
    (middleware_layer 0 1 3 5 (0 : Nat) []).2.2 = [5] ∧
    (middleware_layer 0 1 3 5 (0 : Nat) []).2.1 ≠ 5 := by
  constructor
  · rfl
  · decide

/-- Claim C9 (amended): the middleware is purely observational — it
returns the wrapped handler's response unchanged and appends exactly
one duration sample (the outer closure's measurement `t3 - t0`) to the
recorder per completed request; the log line reports the inner
middleware's own measurement `t2 - t1`, which under a monotone clock
is at most, but not necessarily equal to, the recorded duration. -/
theorem C9_middleware_observational {Resp : Type} (resp : Resp)
    (t0 t1 t2 t3 : Nat) (metrics : List Nat)
    (h01 : t0 ≤ t1) (h12 : t1 ≤ t2) (h23 : t2 ≤ t3) :
    (middleware_layer t0 t1 t2 t3 resp metrics).1 = resp ∧
    (middleware_layer t0 t1 t2 t3 resp metrics).2.2 =
      metrics ++ [t3 - t0] ∧
    (middleware_layer t0 t1 t2 t3 resp metrics).2.1 = t2 - t1 ∧
    t2 - t1 ≤ t3 - t0 := by
  refine ⟨rfl, rfl, rfl, ?_⟩
  omega

/-- Witness for the amended C9 at timestamps 0 ≤ 1 ≤ 3 ≤ 5, response 7
and prior recorder state [4]. -/
theorem C9_witness :
    (0 : Nat) ≤ 1 ∧ (1 : Nat) ≤ 3 ∧ (3 : Nat) ≤ 5 ∧
    ((middleware_layer 0 1 3 5 (7 : Nat) [4]).1 = 7 ∧
     (middleware_layer 0 1 3 5 (7 : Nat) [4]).2.2 = [4] ++ [5 - 0] ∧
     (middleware_layer 0 1 3 5 (7 : Nat) [4]).2.1 = 3 - 1 ∧
     3 - 1 ≤ 5 - 0) :=
  ⟨by decide, by decide, by decide,
    C9_middleware_observational 7 0 1 3 5 [4] (by decide) (by decide)
      (by decide)⟩

/-- Claim C10: percentile indexing never goes out of bounds — for every
non-empty sample sequence and every q, the clamped index
`min (p_idx N q) (N - 1)` is strictly below the length of the sorted
vector being indexed; the empty case is guarded before any indexing. -/
theorem C10_index_in_bounds (l : List Nat) (qnum : Nat) (h : l ≠ []) :
    min (p_idx l.length qnum) (l.length - 1) <
      (List.insertionSort (· ≤ ·) l).length := by
  rw [List.length_insertionSort]
  have hpos : 0 < l.length := List.length_pos.mpr h
  omega

/-- Witness for C10 at the one-element sequence [5] and q = 0.99. -/
theorem C10_witness :
    ([5] : List Nat) ≠ [] ∧
    min (p_idx ([5] : List Nat).length 99) (([5] : List Nat).length - 1) <
      (List.insertionSort (· ≤ ·) [5]).length :=
  ⟨by decide, C10_index_in_bounds [5] 99 (by decide)⟩

end RustKV
